import Mathlib

/-
Verification of the caching/request engine of the kqraze-vue repository.

The development shallowly embeds the TypeScript sources:
  - src/src/use-api/index.ts        (the useApi composable: execute, load,
                                     clear, clearOne, getGroupByArg, hooks)
  - src/create-event-hook (part_004) (createEventHook: on / off / trigger)
  - src/src/index.ts                 (the legacy useApi variant; its inline
                                     createHook shares the Set-based on and
                                     trigger, but its off is the broken
                                     handler.delete(handler))

JavaScript values are modelled by the inductive type JVal; machine maps
(the JS Map used as the cache store, and plain objects) are insertion
ordered association lists, matching JS iteration order.  Promises are
modelled by supplying each fetch outcome as an oracle argument; the
synchronous sections between await points are single atomic steps, which
is exactly the event-loop execution model of the source.
-/

set_option autoImplicit false

namespace KqrazeVue

/-- A JavaScript value, restricted to the shapes this program produces and
consumes: null, booleans, integer numbers, strings, Date objects (carrying
their millisecond timestamp), arrays and plain objects.  Object fields are
kept in insertion order, as JS does for string keys. -/
inductive JVal where
  | vnull
  | vbool (b : Bool)
  | vnum (n : Int)
  | vstr (s : String)
  | vdate (ms : Nat)
  | varr (elems : List JVal)
  | vobj (fields : List (String × JVal))

/-- Escape of one character inside a JSON string literal, as produced by
JSON.stringify: backslash and double quote are escaped; no key or payload
in this development contains control characters, so their escapes are
omitted. -/
def jstrEscapeChar (c : Char) : String :=
  if c = '\\' then "\\\\"
  else if c = '"' then "\\\""
  else String.mk [c]

/-- JSON string literal (with surrounding quotes) for a Lean string. -/
def jstrQuote (s : String) : String :=
  "\"" ++ String.join (s.data.map jstrEscapeChar) ++ "\""

mutual

/-- Embedding of JSON.stringify for JVal.  Dates serialize to their string
form; since no argument list in this development contains a Date, the ISO
calendar rendering is abbreviated to the quoted millisecond count. -/
def jstr : JVal → String
  | .vnull => "null"
  | .vbool true => "true"
  | .vbool false => "false"
  | .vnum n => toString n
  | .vstr s => jstrQuote s
  | .vdate ms => "\"" ++ toString ms ++ "\""
  | .varr es => "[" ++ jstrElems es ++ "]"
  | .vobj fs => "\x7b" ++ jstrFields fs ++ "\x7d"

/-- Comma separated serialization of array elements. -/
def jstrElems : List JVal → String
  | [] => ""
  | [x] => jstr x
  | x :: y :: xs => jstr x ++ "," ++ jstrElems (y :: xs)

/-- Comma separated serialization of object members. -/
def jstrFields : List (String × JVal) → String
  | [] => ""
  | [(k, v)] => jstrQuote k ++ ":" ++ jstr v
  | (k, v) :: y :: xs => jstrQuote k ++ ":" ++ jstr v ++ "," ++ jstrFields (y :: xs)

end

/-- Consume an expected literal character sequence. -/
def expectLit : List Char → List Char → Option (List Char)
  | [], cs => some cs
  | _ :: _, [] => none
  | l :: ls, c :: cs => if c = l then expectLit ls cs else none

/-- Consume a run of decimal digits, accumulating their value. -/
def takeDigits : List Char → Nat → Nat × List Char
  | [], acc => (acc, [])
  | c :: cs, acc =>
    if c.isDigit then takeDigits cs (acc * 10 + (c.toNat - 48)) else (acc, c :: cs)

/-- Parse the body of a JSON string literal after the opening quote, up to
the closing quote.  A backslash makes the following character literal,
matching the escapes jstrQuote emits. -/
def jparseStr : List Char → Option (String × List Char)
  | [] => none
  | '"' :: rest => some ("", rest)
  | '\\' :: c :: rest =>
    (jparseStr rest).map (fun p => (String.mk [c] ++ p.1, p.2))
  | c :: rest =>
    (jparseStr rest).map (fun p => (String.mk [c] ++ p.1, p.2))

mutual

/-- Embedding of JSON.parse (fuelled recursive descent).  It accepts
exactly the whitespace free strings jstr produces: null, true, false,
integer numbers, strings, arrays and objects.  Failure models the
exception JSON.parse would raise. -/
def jparseVal : Nat → List Char → Option (JVal × List Char)
  | 0, _ => none
  | _ + 1, [] => none
  | fuel + 1, c :: cs =>
    if c = 'n' then (expectLit [ 'u', 'l', 'l'] cs).map (fun r => (JVal.vnull, r))
    else if c = 't' then (expectLit [ 'r', 'u', 'e'] cs).map (fun r => (JVal.vbool true, r))
    else if c = 'f' then (expectLit [ 'a', 'l', 's', 'e'] cs).map (fun r => (JVal.vbool false, r))
    else if c = '"' then (jparseStr cs).map (fun p => (JVal.vstr p.1, p.2))
    else if c = '[' then
      match cs with
      | ']' :: rest => some (JVal.varr [], rest)
      | _ => (jparseElems fuel cs).map (fun p => (JVal.varr p.1, p.2))
    else if c = '\x7b' then
      match cs with
      | '\x7d' :: rest => some (JVal.vobj [], rest)
      | _ => (jparseMembers fuel cs).map (fun p => (JVal.vobj p.1, p.2))
    else if c = '-' then
      match cs with
      | d :: _ =>
        if d.isDigit then
          let p := takeDigits cs 0
          some (JVal.vnum (-(p.1 : Int)), p.2)
        else none
      | [] => none
    else if c.isDigit then
      let p := takeDigits (c :: cs) 0
      some (JVal.vnum (p.1 : Int), p.2)
    else none

/-- Parse one or more comma separated array elements and the closing
bracket. -/
def jparseElems : Nat → List Char → Option (List JVal × List Char)
  | 0, _ => none
  | fuel + 1, cs =>
    match jparseVal fuel cs with
    | none => none
    | some (v, rest) =>
      match rest with
      | ',' :: rest2 => (jparseElems fuel rest2).map (fun p => (v :: p.1, p.2))
      | ']' :: rest2 => some ([v], rest2)
      | _ => none

/-- Parse one or more comma separated object members and the closing
brace. -/
def jparseMembers : Nat → List Char → Option (List (String × JVal) × List Char)
  | 0, _ => none
  | fuel + 1, cs =>
    match cs with
    | '"' :: cs2 =>
      match jparseStr cs2 with
      | none => none
      | some (k, rest) =>
        match rest with
        | ':' :: rest2 =>
          match jparseVal fuel rest2 with
          | none => none
          | some (v, rest3) =>
            match rest3 with
            | ',' :: rest4 => (jparseMembers fuel rest4).map (fun p => ((k, v) :: p.1, p.2))
            | '\x7d' :: rest4 => some ([(k, v)], rest4)
            | _ => none
        | _ => none
    | _ => none

end

/-- JSON.parse on a whole string: the parse must consume every character,
as JSON.parse rejects trailing input.  The fuel bound suffices because
every recursive descent step follows the consumption of at least one of
the remaining characters. -/
def jsonParse (s : String) : Option JVal :=
  match jparseVal (2 * s.data.length + 2) s.data with
  | some (v, []) => some v
  | _ => none

/-- JS Map.get / object property read on an insertion ordered association
list. -/
def mapGet (m : List (String × JVal)) (k : String) : Option JVal :=
  match m with
  | [] => none
  | (k2, v) :: rest => if k2 = k then some v else mapGet rest k

/-- JS Map.set: an existing key keeps its position and gets the new value,
a fresh key is appended, matching JS insertion order semantics. -/
def mapSet (m : List (String × JVal)) (k : String) (v : JVal) : List (String × JVal) :=
  match m with
  | [] => [(k, v)]
  | (k2, v2) :: rest => if k2 = k then (k, v) :: rest else (k2, v2) :: mapSet rest k v

/-- JS Map.delete: removes the entry for the key when present (keys are
unique by construction, so removing the first occurrence is exact). -/
def mapDelete (m : List (String × JVal)) (k : String) : List (String × JVal) :=
  match m with
  | [] => []
  | (k2, v2) :: rest => if k2 = k then rest else (k2, v2) :: mapDelete rest k

/-- Property access v.key, returning none for the JS undefined that a
property read on a primitive or a missing field yields. -/
def getProp (v : JVal) (key : String) : Option JVal :=
  match v with
  | .vobj fs => mapGet fs key
  | _ => none

/-- Own enumerable properties contributed by a value under object spread:
an object contributes its fields, an array its index properties, a string
its index to character properties, and every other primitive (and a Date,
which has no own enumerable properties) contributes nothing. -/
def spreadFields : JVal → List (String × JVal)
  | .vobj fs => fs
  | .varr es => es.enum.map (fun p => (toString p.1, p.2))
  | .vstr s => s.data.enum.map (fun p => (toString p.1, JVal.vstr (String.mk [p.2])))
  | _ => []

/-- JS truthiness for the value shapes of JVal. -/
def jsTruthy : JVal → Bool
  | .vnull => false
  | .vbool b => b
  | .vnum n => n != 0
  | .vstr s => !s.isEmpty
  | .vdate _ => true
  | .varr _ => true
  | .vobj _ => true

/-- Options of useApi (src/src/use-api/index.ts lines 10-30): optional
response adapter, optional error adapter, optional cache duration in
seconds.  The collaborator adapters are opaque Lean functions. -/
structure UseApiOptions where
  adapter : Option (JVal → JVal)
  errorAdapter : Option (JVal → JVal)
  cacheTime : Option Nat

/-- The adapter application of line 155: options?.adapter ?
options.adapter(response) : response. -/
def applyAdapter (opts : UseApiOptions) (response : JVal) : JVal :=
  match opts.adapter with
  | some f => f response
  | none => response

/-- The error adapter application of line 168: options?.errorAdapter ?
options.errorAdapter(err) : err. -/
def applyErrorAdapter (opts : UseApiOptions) (e : JVal) : JVal :=
  match opts.errorAdapter with
  | some f => f e
  | none => e

/-- Truthiness of options?.cacheTime as the source tests it on lines 140
and 157: absent is undefined (falsy) and the number 0 is falsy as well. -/
def cacheTimeTruthy : Option Nat → Bool
  | none => false
  | some t => t != 0

/-- The mutable refs of one useApi instance (lines 127-130): isLoading,
error (null modelled as none), triggerRef and the cache Map. -/
structure EngineState where
  isLoading : Bool
  error : Option JVal
  triggerRef : Nat
  cache : List (String × JVal)

/-- The state a fresh useApi call creates: isLoading false, error null,
triggerRef 0, empty cache Map. -/
def initState : EngineState :=
  { isLoading := false, error := none, triggerRef := 0, cache := [] }

/-- One observable hook firing: successHook.trigger(data),
errorHook.trigger(err) or finallyHook.trigger(). -/
inductive HookEvent where
  | success (data : JVal)
  | failure (err : JVal)
  | finallyDone

/-- Everything one execute invocation produces: the settled promise value
(Except.error is a rejection), the engine state it leaves behind, the hook
firings in order, and the argument lists passed to the external request
function (empty on a cache hit). -/
structure ExecOutcome where
  result : Except JVal JVal
  state : EngineState
  events : List HookEvent
  fetchedArgs : List (List JVal)

/-- The expiry test of lines 136-144: isExpired stays false unless
data.fetchedAt and options?.cacheTime are both truthy, in which case it is
fetchedAt + cacheTime * 1000 < Date.now() (strict).  The only fetchedAt
this engine ever stores is a Date, and cacheTime 0 is falsy. -/
def isExpiredCheck (cacheTime : Option Nat) (data : JVal) (nowMs : Nat) : Bool :=
  match getProp data "fetchedAt", cacheTime with
  | some (JVal.vdate fetchedAt), some ct =>
    ct != 0 && decide (fetchedAt + ct * 1000 < nowMs)
  | _, _ => false

/-- The cache check of lines 135-147: when ignoreCache is false and the
Map holds the key and the entry is not expired, the early return fires
with the cached data; otherwise control falls through to the fetch. -/
def cacheLookup (opts : UseApiOptions) (ignoreCache : Bool) (cacheKey : String)
    (nowMs : Nat) (cache : List (String × JVal)) : Option JVal :=
  match (if ignoreCache then none else mapGet cache cacheKey) with
  | some data => if isExpiredCheck opts.cacheTime data nowMs then none else some data
  | none => none

/-- Lines 157-159: when options?.cacheTime is truthy the adapted data is
replaced by the spread object with fetchedAt set to the current Date;
otherwise it is kept as is. -/
def stampData (cacheTime : Option Nat) (v : JVal) (nowMs : Nat) : JVal :=
  if cacheTimeTruthy cacheTime then
    JVal.vobj (mapSet (spreadFields v) "fetchedAt" (JVal.vdate nowMs))
  else v

/-- The fetch section of execute (lines 149-177): isLoading set true and
error cleared, then the awaited request outcome is either adapted,
stamped, cached, success-hooked and returned with triggerRef incremented,
or error-adapted, stored in error, error-hooked and rethrown; the finally
block resets isLoading and fires the finally hook in both cases. -/
def executeFetch (opts : UseApiOptions) (args : List JVal) (cacheKey : String)
    (fetchResult : Except JVal JVal) (stampNow : Nat) (st : EngineState) : ExecOutcome :=
  match fetchResult with
  | Except.ok response =>
    let adaptedData := stampData opts.cacheTime (applyAdapter opts response) stampNow
    { result := Except.ok adaptedData
      state := { isLoading := false, error := none,
                 triggerRef := st.triggerRef + 1,
                 cache := mapSet st.cache cacheKey adaptedData }
      events := [HookEvent.success adaptedData, HookEvent.finallyDone]
      fetchedArgs := [args] }
  | Except.error err =>
    let adaptedError := applyErrorAdapter opts err
    { result := Except.error adaptedError
      state := { isLoading := false, error := some adaptedError,
                 triggerRef := st.triggerRef, cache := st.cache }
      events := [HookEvent.failure adaptedError, HookEvent.finallyDone]
      fetchedArgs := [args] }

/-- The whole execute of lines 132-178, run to settlement.  The cache key
is JSON.stringify(args); checkNow is Date.now() at the cache check,
fetchResult the outcome the external request settles with, and stampNow
the Date taken when stamping the adapted data.  A cache hit returns the
entry, leaves the state untouched, fires no hook and performs no fetch. -/
def execute (opts : UseApiOptions) (ignoreCache : Bool) (args : List JVal)
    (checkNow : Nat) (fetchResult : Except JVal JVal) (stampNow : Nat)
    (st : EngineState) : ExecOutcome :=
  let cacheKey := jstr (JVal.varr args)
  match cacheLookup opts ignoreCache cacheKey checkNow st.cache with
  | some data =>
    { result := Except.ok data, state := st, events := [], fetchedArgs := [] }
  | none => executeFetch opts args cacheKey fetchResult stampNow st

/-- Line 207: load is execute with ignoreCache set to true. -/
def loadApi (opts : UseApiOptions) (args : List JVal) (checkNow : Nat)
    (fetchResult : Except JVal JVal) (stampNow : Nat) (st : EngineState) : ExecOutcome :=
  execute opts true args checkNow fetchResult stampNow st

/-- Line 204: clear empties the cache Map and touches nothing else. -/
def clearApi (st : EngineState) : EngineState :=
  { st with cache := [] }

/-- Line 205: clearOne deletes the entry for JSON.stringify(args). -/
def clearOneApi (args : List JVal) (st : EngineState) : EngineState :=
  { st with cache := mapDelete st.cache (jstr (JVal.varr args)) }

/-- Lines 195-199: getGroupByArg filters the current cache entries by
re-parsing each key and comparing the serialized positional argument with
the serialized probe, then maps to the values.  The computed re-derives
this from the cache contents on every read; the model makes that explicit
by being a plain function of the cache. -/
def groupFilterKey (index : Option Nat) (arg : JVal) (key : String) : Bool :=
  match index with
  | none => true
  | some i =>
    match jsonParse key with
    | some (JVal.varr xs) =>
      match xs.get? i with
      | some x => jstr x == jstr arg
      | none => false
    | _ => false

/-- The value list getGroupByArg yields for one read of the cache. -/
def getGroupByArg (cache : List (String × JVal)) (index : Option Nat) (arg : JVal) : List JVal :=
  (cache.filter (fun kv => groupFilterKey index arg kv.1)).map Prod.snd

/-- One public engine operation together with the oracle data (times and
fetch outcome) its run consumes, used to speak about sequences of calls
between two executes. -/
inductive ApiOp where
  | exec (args : List JVal) (checkNow : Nat) (fetchResult : Except JVal JVal) (stampNow : Nat)
  | load (args : List JVal) (checkNow : Nat) (fetchResult : Except JVal JVal) (stampNow : Nat)
  | clear
  | clearOne (args : List JVal)

/-- The engine state an operation leaves behind. -/
def runOp (opts : UseApiOptions) (op : ApiOp) (st : EngineState) : EngineState :=
  match op with
  | .exec args c fr s => (execute opts false args c fr s st).state
  | .load args c fr s => (loadApi opts args c fr s st).state
  | .clear => clearApi st
  | .clearOne args => clearOneApi args st

/-- Sequential run of a list of operations. -/
def runOps (opts : UseApiOptions) (ops : List ApiOp) (st : EngineState) : EngineState :=
  match ops with
  | [] => st
  | op :: rest => runOps opts rest (runOp opts op st)

/-- The operations that leave the cache entry for a key untouched: clear
never does; clearOne and load do unless they target the key; an execute
targeting the key is harmless provided the entry it would find (the value
V) is unexpired at its check time, because it then returns from the cache
without writing. -/
def preservesKey (opts : UseApiOptions) (key : String) (V : JVal) : ApiOp → Prop
  | .exec args checkNow _ _ =>
    jstr (JVal.varr args) = key → isExpiredCheck opts.cacheTime V checkNow = false
  | .load args _ _ _ => jstr (JVal.varr args) ≠ key
  | .clear => False
  | .clearOne args => jstr (JVal.varr args) ≠ key

/-
Event hook model (src/create-event-hook, part_004, and the inline
createHook of src/src/index.ts lines 3-12).  Handlers are identified by
reference; the model names each distinct function reference by a Nat.
Both sources keep handlers in a JS Set, which preserves insertion order
and ignores re-insertion of a present element.
-/

/-- handlers.add(handler): a Set add, appending only a fresh element. -/
def hookOn (handlers : List Nat) (h : Nat) : List Nat :=
  if h ∈ handlers then handlers else handlers ++ [h]

/-- handlers.delete(handler), the off of createEventHook (part_004 lines
22-24): removes the handler when present, no-op otherwise. -/
def hookOff (handlers : List Nat) (h : Nat) : List Nat :=
  handlers.filter (fun x => x ≠ h)

/-- handlers.forEach((handler) => handler(data)): the sequence of handler
invocations one trigger performs, in Set iteration order. -/
def hookTriggerCalls (handlers : List Nat) : List Nat :=
  handlers

/-- The off of the legacy createHook, src/src/index.ts line 9:
(handler) => handler.delete(handler).  A handler is a function and owns no
delete method, so calling it throws a TypeError; the handler set is never
touched. -/
def legacyOff (_handlers : List Nat) (_h : Nat) : Except String (List Nat) :=
  Except.error "TypeError: handler.delete is not a function"

/-
Interleaving model for overlapping executions.  The only suspension point
inside execute is the await of the external request (line 153): the
section before it (cache check, isLoading and error writes) and the
section after it (adapt, cache write, hooks, finally) are synchronous and
therefore atomic steps of the event loop.  A schedule is a list of such
steps; each in-flight execution is identified by a Nat id and remembers
its cache key.
-/

/-- One execution that has passed its start section and whose request is
still pending. -/
structure PendingExec where
  id : Nat
  cacheKey : String

/-- Engine state plus the set of in-flight executions. -/
structure CState where
  eng : EngineState
  pending : List PendingExec

/-- One atomic event-loop step: the synchronous start section of an
execute call, or the synchronous resumption when its request settles. -/
inductive CStep where
  | start (id : Nat) (ignoreCache : Bool) (args : List JVal) (checkNow : Nat)
  | settle (id : Nat) (fetchResult : Except JVal JVal) (stampNow : Nat)

/-- The start section: on a cache hit the call returns at once and touches
nothing; otherwise isLoading is set true, error is cleared and the fetch
goes in flight. -/
def stepStart (opts : UseApiOptions) (id : Nat) (ignoreCache : Bool)
    (args : List JVal) (checkNow : Nat) (st : CState) : CState :=
  let cacheKey := jstr (JVal.varr args)
  match cacheLookup opts ignoreCache cacheKey checkNow st.eng.cache with
  | some _ => st
  | none =>
    { eng := { st.eng with isLoading := true, error := none }
      pending := st.pending ++ [{ id := id, cacheKey := cacheKey }] }

/-- The resumption section: the settling execution adapts and caches (or
records the error), and its finally block sets isLoading false whatever
other executions are still in flight.  The success resumption (lines
153-166 and the finally of 174-177) never writes error.value — only the
start section and the catch do — so a success leaves the error state of
any concurrently failed execution visible. -/
def stepSettle (opts : UseApiOptions) (id : Nat) (fetchResult : Except JVal JVal)
    (stampNow : Nat) (st : CState) : CState :=
  match st.pending.find? (fun p => p.id == id) with
  | none => st
  | some p =>
    let rest := st.pending.filter (fun q => q.id != id)
    match fetchResult with
    | Except.ok response =>
      let adaptedData := stampData opts.cacheTime (applyAdapter opts response) stampNow
      { eng := { isLoading := false, error := st.eng.error,
                 triggerRef := st.eng.triggerRef + 1,
                 cache := mapSet st.eng.cache p.cacheKey adaptedData }
        pending := rest }
    | Except.error err =>
      let adaptedError := applyErrorAdapter opts err
      { eng := { st.eng with isLoading := false, error := some adaptedError }
        pending := rest }

/-- Run one scheduled step. -/
def runStep (opts : UseApiOptions) (s : CStep) (st : CState) : CState :=
  match s with
  | .start id ig args c => stepStart opts id ig args c st
  | .settle id fr now => stepSettle opts id fr now st

/-- Run a schedule of steps in order. -/
def runTrace (opts : UseApiOptions) (steps : List CStep) (st : CState) : CState :=
  match steps with
  | [] => st
  | s :: rest => runTrace opts rest (runStep opts s st)

/-- Recognizes the start steps of a schedule. -/
def isStartStep : CStep → Bool
  | .start _ _ _ _ => true
  | .settle _ _ _ => false

/-
Helper lemmas about the map operations and the cache check.
-/

theorem mapGet_mapSet_self (m : List (String × JVal)) (k : String) (v : JVal) :
    mapGet (mapSet m k v) k = some v := by
  induction m with
  | nil => simp [mapGet, mapSet]
  | cons kv rest ih =>
    by_cases h : kv.1 = k
    · simp [mapSet, mapGet, h]
    · simp [mapSet, mapGet, h, ih]

theorem mapGet_mapSet_ne (m : List (String × JVal)) (k2 k : String) (v : JVal)
    (h : k2 ≠ k) : mapGet (mapSet m k2 v) k = mapGet m k := by
  induction m with
  | nil => simp [mapGet, mapSet, h]
  | cons kv rest ih =>
    by_cases h2 : kv.1 = k2
    · simp [mapSet, mapGet, h2, h]
    · simp [mapSet, mapGet, h2, ih]

theorem mapGet_mapDelete_ne (m : List (String × JVal)) (k2 k : String)
    (h : k2 ≠ k) : mapGet (mapDelete m k2) k = mapGet m k := by
  induction m with
  | nil => simp [mapDelete]
  | cons kv rest ih =>
    by_cases h2 : kv.1 = k2
    · have : ¬ kv.1 = k := by rw [h2]; exact h
      simp [mapDelete, mapGet, h2, this, h]
    · simp [mapDelete, mapGet, h2, ih]

theorem cacheLookup_true (opts : UseApiOptions) (key : String) (nowMs : Nat)
    (cache : List (String × JVal)) : cacheLookup opts true key nowMs cache = none := rfl

theorem cacheLookup_mapGet (opts : UseApiOptions) (ig : Bool) (key : String)
    (nowMs : Nat) (cache : List (String × JVal)) (d : JVal)
    (h : cacheLookup opts ig key nowMs cache = some d) : mapGet cache key = some d := by
  unfold cacheLookup at h
  cases ig with
  | true => simp at h
  | false =>
    cases hm : mapGet cache key with
    | none => rw [hm] at h; simp at h
    | some data =>
      rw [hm] at h
      by_cases he : isExpiredCheck opts.cacheTime data nowMs
      · simp [he] at h
      · simp [he] at h; subst h; rfl

theorem cacheLookup_of_fresh (opts : UseApiOptions) (key : String) (nowMs : Nat)
    (cache : List (String × JVal)) (V : JVal)
    (hm : mapGet cache key = some V)
    (hfresh : isExpiredCheck opts.cacheTime V nowMs = false) :
    cacheLookup opts false key nowMs cache = some V := by
  simp [cacheLookup, hm, hfresh]

theorem execute_hit (opts : UseApiOptions) (ig : Bool) (A : List JVal)
    (checkNow stampNow : Nat) (fr : Except JVal JVal) (st : EngineState) (d : JVal)
    (h : cacheLookup opts ig (jstr (JVal.varr A)) checkNow st.cache = some d) :
    execute opts ig A checkNow fr stampNow st =
      { result := Except.ok d, state := st, events := [], fetchedArgs := [] } := by
  simp [execute, h]

theorem execute_result_cached (opts : UseApiOptions) (ig : Bool) (A : List JVal)
    (checkNow stampNow : Nat) (fr : Except JVal JVal) (st : EngineState) (V : JVal)
    (hok : (execute opts ig A checkNow fr stampNow st).result = Except.ok V) :
    mapGet (execute opts ig A checkNow fr stampNow st).state.cache
      (jstr (JVal.varr A)) = some V := by
  cases hcl : cacheLookup opts ig (jstr (JVal.varr A)) checkNow st.cache with
  | some d =>
    rw [execute_hit opts ig A checkNow stampNow fr st d hcl] at hok ⊢
    simp at hok ⊢
    rw [← hok]
    exact cacheLookup_mapGet opts ig _ checkNow st.cache d hcl
  | none =>
    simp only [execute, hcl] at hok ⊢
    cases fr with
    | ok r =>
      simp only [executeFetch] at hok ⊢
      simp at hok ⊢
      rw [← hok]
      exact mapGet_mapSet_self st.cache _ _
    | error e => simp [executeFetch] at hok

theorem runOp_preserves (opts : UseApiOptions) (key : String) (V : JVal) (op : ApiOp)
    (st : EngineState) (hmem : mapGet st.cache key = some V)
    (hop : preservesKey opts key V op) :
    mapGet (runOp opts op st).cache key = some V := by
  cases op with
  | exec args c fr s =>
    by_cases hk : jstr (JVal.varr args) = key
    · have hfresh := hop hk
      have hcl : cacheLookup opts false (jstr (JVal.varr args)) c st.cache = some V := by
        rw [hk]; exact cacheLookup_of_fresh opts key c st.cache V hmem hfresh
      simp only [runOp]
      rw [execute_hit opts false args c s fr st V hcl]
      exact hmem
    · simp only [runOp]
      cases hcl : cacheLookup opts false (jstr (JVal.varr args)) c st.cache with
      | some d =>
        rw [execute_hit opts false args c s fr st d hcl]
        exact hmem
      | none =>
        simp only [execute, hcl]
        cases fr with
        | ok r =>
          simp only [executeFetch]
          rw [mapGet_mapSet_ne st.cache _ key _ hk]
          exact hmem
        | error e => simpa [executeFetch] using hmem
  | load args c fr s =>
    have hk : jstr (JVal.varr args) ≠ key := hop
    simp only [runOp, loadApi, execute, cacheLookup_true]
    cases fr with
    | ok r =>
      simp only [executeFetch]
      rw [mapGet_mapSet_ne st.cache _ key _ hk]
      exact hmem
    | error e => simpa [executeFetch] using hmem
  | clear => exact absurd hop (by simp [preservesKey])
  | clearOne args =>
    have hk : jstr (JVal.varr args) ≠ key := hop
    simp only [runOp, clearOneApi]
    rw [mapGet_mapDelete_ne st.cache _ key hk]
    exact hmem

theorem runOps_preserves (opts : UseApiOptions) (key : String) (V : JVal)
    (ops : List ApiOp) (st : EngineState)
    (hmem : mapGet st.cache key = some V)
    (hops : ∀ op ∈ ops, preservesKey opts key V op) :
    mapGet (runOps opts ops st).cache key = some V := by
  induction ops generalizing st with
  | nil => exact hmem
  | cons op rest ih =>
    simp only [runOps]
    exact ih (runOp opts op st)
      (runOp_preserves opts key V op st hmem (hops op (by simp)))
      (fun o ho => hops o (by simp [ho]))

theorem isExpiredCheck_none (data : JVal) (nowMs : Nat) :
    isExpiredCheck none data nowMs = false := by
  unfold isExpiredCheck
  cases getProp data "fetchedAt" with
  | none => rfl
  | some fa => cases fa <;> rfl

theorem isExpiredCheck_zero (data : JVal) (nowMs : Nat) :
    isExpiredCheck (some 0) data nowMs = false := by
  unfold isExpiredCheck
  cases getProp data "fetchedAt" with
  | none => rfl
  | some fa => cases fa <;> rfl

/-
Claim theorems.
-/

/-- C1 (cache hit equivalence): after one execute(A) whose promise
resolves to V, any run of intervening operations among which none is
clear, none targets A with clearOne or load, and every execute hitting A's
key meets an unexpired entry, leaves A's entry at V; a subsequent
execute(A) whose check time still finds V unexpired resolves to the same
V, passes nothing to the external request function, fires no hook and
leaves the whole engine state untouched.  When no cacheTime is configured
isExpiredCheck is constantly false, so the freshness hypotheses hold for
free. -/
theorem C1_cache_hit_equivalence (opts : UseApiOptions) (A : List JVal)
    (check1 stamp1 : Nat) (fr1 : Except JVal JVal) (st : EngineState) (V : JVal)
    (ops : List ApiOp) (check2 stamp2 : Nat) (fr2 : Except JVal JVal)
    (hok : (execute opts false A check1 fr1 stamp1 st).result = Except.ok V)
    (hops : ∀ op ∈ ops, preservesKey opts (jstr (JVal.varr A)) V op)
    (hfresh : isExpiredCheck opts.cacheTime V check2 = false) :
    execute opts false A check2 fr2 stamp2
        (runOps opts ops (execute opts false A check1 fr1 stamp1 st).state) =
      { result := Except.ok V
        state := runOps opts ops (execute opts false A check1 fr1 stamp1 st).state
        events := []
        fetchedArgs := [] } := by
  have h1 : mapGet (execute opts false A check1 fr1 stamp1 st).state.cache
      (jstr (JVal.varr A)) = some V :=
    execute_result_cached opts false A check1 stamp1 fr1 st V hok
  have h2 : mapGet (runOps opts ops (execute opts false A check1 fr1 stamp1 st).state).cache
      (jstr (JVal.varr A)) = some V :=
    runOps_preserves opts (jstr (JVal.varr A)) V ops _ h1 hops
  exact execute_hit opts false A check2 stamp2 fr2 _ V
    (cacheLookup_of_fresh opts (jstr (JVal.varr A)) check2 _ V h2 hfresh)

/-- Witness for C1: a successful execute([1]) resolving to 7 with no
adapters and no cacheTime, one intervening clearOne([2]) on another key, a
second execute([1]) whose fetch oracle would reject; it resolves to 7
anyway, fetches nothing, fires nothing, changes nothing. -/
theorem C1_cache_hit_equivalence_witness :
    execute ⟨none, none, none⟩ false [JVal.vnum 1] 5 (Except.error JVal.vnull) 5
        (runOps ⟨none, none, none⟩ [ApiOp.clearOne [JVal.vnum 2]]
          (execute ⟨none, none, none⟩ false [JVal.vnum 1] 0
            (Except.ok (JVal.vnum 7)) 0 initState).state) =
      { result := Except.ok (JVal.vnum 7)
        state := runOps ⟨none, none, none⟩ [ApiOp.clearOne [JVal.vnum 2]]
          (execute ⟨none, none, none⟩ false [JVal.vnum 1] 0
            (Except.ok (JVal.vnum 7)) 0 initState).state
        events := []
        fetchedArgs := [] } :=
  C1_cache_hit_equivalence ⟨none, none, none⟩ [JVal.vnum 1] 0 0
    (Except.ok (JVal.vnum 7)) initState (JVal.vnum 7)
    [ApiOp.clearOne [JVal.vnum 2]] 5 5 (Except.error JVal.vnull)
    rfl
    (by
      intro op hmem
      simp only [List.mem_singleton] at hmem
      subst hmem
      show jstr (JVal.varr [JVal.vnum 2]) ≠ jstr (JVal.varr [JVal.vnum 1])
      decide)
    rfl

/-- C2 (failure atomicity and adapted-error propagation): an execute that
reaches the fetch (no cache hit) and whose external request rejects with
err leaves the cache untouched, stores the adapted rejection (the raw one
when no errorAdapter is configured) in the error state, fires the error
hook with that adapted error followed by the finally hook, and re-raises
the adapted error as the settled promise value. -/
theorem C2_failure_atomicity (opts : UseApiOptions) (ig : Bool) (A : List JVal)
    (checkNow stampNow : Nat) (e : JVal) (st : EngineState)
    (hmiss : cacheLookup opts ig (jstr (JVal.varr A)) checkNow st.cache = none) :
    (execute opts ig A checkNow (Except.error e) stampNow st).state.cache = st.cache ∧
    (execute opts ig A checkNow (Except.error e) stampNow st).state.error =
      some (applyErrorAdapter opts e) ∧
    (opts.errorAdapter = none →
      (execute opts ig A checkNow (Except.error e) stampNow st).state.error = some e) ∧
    (execute opts ig A checkNow (Except.error e) stampNow st).events =
      [HookEvent.failure (applyErrorAdapter opts e), HookEvent.finallyDone] ∧
    (execute opts ig A checkNow (Except.error e) stampNow st).result =
      Except.error (applyErrorAdapter opts e) := by
  refine ⟨?_, ?_, ?_, ?_, ?_⟩
  · simp [execute, hmiss, executeFetch]
  · simp [execute, hmiss, executeFetch]
  · intro hna
    simp [execute, hmiss, executeFetch, applyErrorAdapter, hna]
  · simp [execute, hmiss, executeFetch]
  · simp [execute, hmiss, executeFetch]

/-- Witness for C2: executing [1] against an empty cache with a rejecting
fetch; everything is evaluated on the concrete outcome. -/
theorem C2_failure_atomicity_witness :
    (execute ⟨none, none, none⟩ false [JVal.vnum 1] 0
        (Except.error (JVal.vstr "boom")) 0 initState).state.cache = initState.cache ∧
    (execute ⟨none, none, none⟩ false [JVal.vnum 1] 0
        (Except.error (JVal.vstr "boom")) 0 initState).state.error =
      some (applyErrorAdapter ⟨none, none, none⟩ (JVal.vstr "boom")) ∧
    ((⟨none, none, none⟩ : UseApiOptions).errorAdapter = none →
      (execute ⟨none, none, none⟩ false [JVal.vnum 1] 0
          (Except.error (JVal.vstr "boom")) 0 initState).state.error =
        some (JVal.vstr "boom")) ∧
    (execute ⟨none, none, none⟩ false [JVal.vnum 1] 0
        (Except.error (JVal.vstr "boom")) 0 initState).events =
      [HookEvent.failure (applyErrorAdapter ⟨none, none, none⟩ (JVal.vstr "boom")),
       HookEvent.finallyDone] ∧
    (execute ⟨none, none, none⟩ false [JVal.vnum 1] 0
        (Except.error (JVal.vstr "boom")) 0 initState).result =
      Except.error (applyErrorAdapter ⟨none, none, none⟩ (JVal.vstr "boom")) :=
  C2_failure_atomicity ⟨none, none, none⟩ false [JVal.vnum 1] 0 0
    (JVal.vstr "boom") initState rfl

/-- C3 (bypass property): load(A) passes A to the external request
function whatever the prior cache state holds, and when the request
resolves with r it overwrites the cache entry for A's key with the
adapted (and, with cacheTime configured, stamped) result, which is also
the value the promise resolves to. -/
theorem C3_load_bypass (opts : UseApiOptions) (A : List JVal)
    (checkNow stampNow : Nat) (fr : Except JVal JVal) (st : EngineState) :
    (loadApi opts A checkNow fr stampNow st).fetchedArgs = [A] ∧
    (∀ r : JVal, fr = Except.ok r →
      (loadApi opts A checkNow fr stampNow st).result =
        Except.ok (stampData opts.cacheTime (applyAdapter opts r) stampNow) ∧
      mapGet (loadApi opts A checkNow fr stampNow st).state.cache
        (jstr (JVal.varr A)) =
          some (stampData opts.cacheTime (applyAdapter opts r) stampNow)) := by
  constructor
  · simp only [loadApi, execute, cacheLookup_true]
    cases fr <;> simp [executeFetch]
  · intro r hr
    subst hr
    constructor
    · simp [loadApi, execute, cacheLookup_true, executeFetch]
    · simp only [loadApi, execute, cacheLookup_true, executeFetch]
      exact mapGet_mapSet_self st.cache _ _

/-- Witness for C3: the cache already holds 7 for key [1]; load([1]) with
a fetch resolving to 8 still fetches and overwrites the entry with 8. -/
theorem C3_load_bypass_witness :
    (loadApi ⟨none, none, none⟩ [JVal.vnum 1] 5 (Except.ok (JVal.vnum 8)) 5
        (execute ⟨none, none, none⟩ false [JVal.vnum 1] 0
          (Except.ok (JVal.vnum 7)) 0 initState).state).fetchedArgs = [[JVal.vnum 1]] ∧
    (loadApi ⟨none, none, none⟩ [JVal.vnum 1] 5 (Except.ok (JVal.vnum 8)) 5
        (execute ⟨none, none, none⟩ false [JVal.vnum 1] 0
          (Except.ok (JVal.vnum 7)) 0 initState).state).result =
      Except.ok (stampData none (applyAdapter ⟨none, none, none⟩ (JVal.vnum 8)) 5) ∧
    mapGet (loadApi ⟨none, none, none⟩ [JVal.vnum 1] 5 (Except.ok (JVal.vnum 8)) 5
        (execute ⟨none, none, none⟩ false [JVal.vnum 1] 0
          (Except.ok (JVal.vnum 7)) 0 initState).state).state.cache
      (jstr (JVal.varr [JVal.vnum 1])) =
        some (stampData none (applyAdapter ⟨none, none, none⟩ (JVal.vnum 8)) 5) := by
  have h := C3_load_bypass ⟨none, none, none⟩ [JVal.vnum 1] 5 5
    (Except.ok (JVal.vnum 8))
    (execute ⟨none, none, none⟩ false [JVal.vnum 1] 0
      (Except.ok (JVal.vnum 7)) 0 initState).state
  exact ⟨h.1, (h.2 (JVal.vnum 8) rfl).1, (h.2 (JVal.vnum 8) rfl).2⟩

/-- C4 counterexample: cacheTime is 1 second and the entry was stamped at
t0 = 0; the claim says a re-fetch is triggered for every now at or after
t0 + T, including now = t0 + T exactly, but at checkNow = 1000 ms (t0 + T
exactly) the code still serves the cached entry: nothing is passed to the
fetch function and the promise resolves to the cached payload, because the
expiry comparison is the strict fetchedAt + cacheTime * 1000 < now. -/
theorem C4_expiration_counterexample :
    (execute ⟨none, none, some 1⟩ false [JVal.vnum 1] 1000
        (Except.ok JVal.vnull) 1000
        (execute ⟨none, none, some 1⟩ false [JVal.vnum 1] 0
          (Except.ok (JVal.vobj [("v", JVal.vnum 7)])) 0 initState).state).fetchedArgs
      = [] ∧
    (execute ⟨none, none, some 1⟩ false [JVal.vnum 1] 1000
        (Except.ok JVal.vnull) 1000
        (execute ⟨none, none, some 1⟩ false [JVal.vnum 1] 0
          (Except.ok (JVal.vobj [("v", JVal.vnum 7)])) 0 initState).state).result
      = Except.ok (JVal.vobj [("v", JVal.vnum 7), ("fetchedAt", JVal.vdate 0)]) :=
  ⟨rfl, rfl⟩

/-- C4 corrected (expiration semantics): with cacheTime = T seconds
configured and a cached entry stamped fetchedAt = t0, an execute serves
the entry from cache (no fetch, no hook, no state change) exactly when
now ≤ t0 + T — in particular still at t0 + T itself — and re-fetches for
every now strictly after t0 + T.  -/
theorem C4_expiration_boundary (opts : UseApiOptions) (T : Nat) (A : List JVal)
    (st : EngineState) (data : JVal) (t0 checkNow stampNow : Nat)
    (fr : Except JVal JVal)
    (hT : opts.cacheTime = some T) (hT0 : T ≠ 0)
    (hdata : mapGet st.cache (jstr (JVal.varr A)) = some data)
    (hfa : getProp data "fetchedAt" = some (JVal.vdate t0)) :
    (checkNow ≤ t0 + T * 1000 →
      execute opts false A checkNow fr stampNow st =
        { result := Except.ok data, state := st, events := [], fetchedArgs := [] }) ∧
    (t0 + T * 1000 < checkNow →
      (execute opts false A checkNow fr stampNow st).fetchedArgs = [A]) := by
  have hexp : isExpiredCheck opts.cacheTime data checkNow =
      (T != 0 && decide (t0 + T * 1000 < checkNow)) := by
    simp [isExpiredCheck, hfa, hT]
  constructor
  · intro hle
    have hfresh : isExpiredCheck opts.cacheTime data checkNow = false := by
      rw [hexp]
      simp [Nat.not_lt.mpr hle]
    exact execute_hit opts false A checkNow stampNow fr st data
      (cacheLookup_of_fresh opts _ checkNow st.cache data hdata hfresh)
  · intro hlt
    have hstale : isExpiredCheck opts.cacheTime data checkNow = true := by
      rw [hexp]
      simp [hlt, hT0]
    have hcl : cacheLookup opts false (jstr (JVal.varr A)) checkNow st.cache = none := by
      simp [cacheLookup, hdata, hstale]
    simp only [execute, hcl]
    cases fr <;> simp [executeFetch]

/-- Witness for the corrected C4: with T = 1 and the entry stamped at 0,
the execute at 1000 ms is a full cache hit and the execute at 1001 ms
passes the arguments to the fetch function. -/
theorem C4_expiration_boundary_witness :
    execute ⟨none, none, some 1⟩ false [JVal.vnum 1] 1000
        (Except.error JVal.vnull) 1000
        (execute ⟨none, none, some 1⟩ false [JVal.vnum 1] 0
          (Except.ok (JVal.vobj [("v", JVal.vnum 7)])) 0 initState).state =
      { result := Except.ok (JVal.vobj [("v", JVal.vnum 7), ("fetchedAt", JVal.vdate 0)])
        state := (execute ⟨none, none, some 1⟩ false [JVal.vnum 1] 0
          (Except.ok (JVal.vobj [("v", JVal.vnum 7)])) 0 initState).state
        events := []
        fetchedArgs := [] } ∧
    (execute ⟨none, none, some 1⟩ false [JVal.vnum 1] 1001
        (Except.ok JVal.vnull) 1001
        (execute ⟨none, none, some 1⟩ false [JVal.vnum 1] 0
          (Except.ok (JVal.vobj [("v", JVal.vnum 7)])) 0 initState).state).fetchedArgs
      = [[JVal.vnum 1]] := by
  constructor
  · exact (C4_expiration_boundary ⟨none, none, some 1⟩ 1 [JVal.vnum 1]
      (execute ⟨none, none, some 1⟩ false [JVal.vnum 1] 0
        (Except.ok (JVal.vobj [("v", JVal.vnum 7)])) 0 initState).state
      (JVal.vobj [("v", JVal.vnum 7), ("fetchedAt", JVal.vdate 0)])
      0 1000 1000 (Except.error JVal.vnull)
      rfl (by decide) rfl rfl).1 (by decide)
  · exact (C4_expiration_boundary ⟨none, none, some 1⟩ 1 [JVal.vnum 1]
      (execute ⟨none, none, some 1⟩ false [JVal.vnum 1] 0
        (Except.ok (JVal.vobj [("v", JVal.vnum 7)])) 0 initState).state
      (JVal.vobj [("v", JVal.vnum 7), ("fetchedAt", JVal.vdate 0)])
      0 1001 1001 (Except.ok JVal.vnull)
      rfl (by decide) rfl rfl).2 (by decide)

/-- C9 counterexample: with cacheTime configured, a successful execute
whose adapted result is the nonempty string "a" stores and returns the
object holding the string's index property "0" besides fetchedAt — not an
object containing only fetchedAt as the claim states for every non-object
primitive including strings. -/
theorem C9_primitive_spread_counterexample :
    (execute ⟨none, none, some 60⟩ false [JVal.vnum 1] 0
        (Except.ok (JVal.vstr "a")) 5 initState).result =
      Except.ok (JVal.vobj [("0", JVal.vstr "a"), ("fetchedAt", JVal.vdate 5)]) ∧
    mapGet (execute ⟨none, none, some 60⟩ false [JVal.vnum 1] 0
        (Except.ok (JVal.vstr "a")) 5 initState).state.cache "[1]" =
      some (JVal.vobj [("0", JVal.vstr "a"), ("fetchedAt", JVal.vdate 5)]) ∧
    JVal.vobj [("0", JVal.vstr "a"), ("fetchedAt", JVal.vdate 5)] ≠
      JVal.vobj [("fetchedAt", JVal.vdate 5)] := by
  refine ⟨rfl, rfl, ?_⟩
  intro h
  injection h with hf
  simp at hf

/-- C9 corrected (timestamp stamping by object spread): when cacheTime is
truthy, a successful non-cache-hit execute stores in the cache and returns
the object formed by the own enumerable properties of the adapted result
under spread with fetchedAt set to the stamping Date; for every adapted
result contributing no own enumerable property (a number, boolean, null, a
Date or the empty string — but not a nonempty string, which contributes
its index to character properties) the payload is the object holding only
fetchedAt and the adapted value itself is lost. -/
theorem C9_timestamp_spread (opts : UseApiOptions) (A : List JVal)
    (checkNow stampNow : Nat) (r : JVal) (st : EngineState)
    (hct : cacheTimeTruthy opts.cacheTime = true)
    (hmiss : cacheLookup opts false (jstr (JVal.varr A)) checkNow st.cache = none) :
    (execute opts false A checkNow (Except.ok r) stampNow st).result =
      Except.ok (JVal.vobj
        (mapSet (spreadFields (applyAdapter opts r)) "fetchedAt" (JVal.vdate stampNow))) ∧
    mapGet (execute opts false A checkNow (Except.ok r) stampNow st).state.cache
        (jstr (JVal.varr A)) =
      some (JVal.vobj
        (mapSet (spreadFields (applyAdapter opts r)) "fetchedAt" (JVal.vdate stampNow))) ∧
    (spreadFields (applyAdapter opts r) = [] →
      (execute opts false A checkNow (Except.ok r) stampNow st).result =
        Except.ok (JVal.vobj [("fetchedAt", JVal.vdate stampNow)])) := by
  refine ⟨?_, ?_, ?_⟩
  · simp [execute, hmiss, executeFetch, stampData, hct]
  · simp only [execute, hmiss, executeFetch, stampData, hct, if_pos]
    exact mapGet_mapSet_self st.cache _ _
  · intro hp
    simp [execute, hmiss, executeFetch, stampData, hct, hp, mapSet]

/-- Witness for the corrected C9: adapted result 7 (a number) with
cacheTime 60; the stored and returned payload is exactly the object with
the single fetchedAt property. -/
theorem C9_timestamp_spread_witness :
    (execute ⟨none, none, some 60⟩ false [JVal.vnum 1] 0
        (Except.ok (JVal.vnum 7)) 5 initState).result =
      Except.ok (JVal.vobj
        (mapSet (spreadFields (applyAdapter ⟨none, none, some 60⟩ (JVal.vnum 7)))
          "fetchedAt" (JVal.vdate 5))) ∧
    mapGet (execute ⟨none, none, some 60⟩ false [JVal.vnum 1] 0
        (Except.ok (JVal.vnum 7)) 5 initState).state.cache
        (jstr (JVal.varr [JVal.vnum 1])) =
      some (JVal.vobj
        (mapSet (spreadFields (applyAdapter ⟨none, none, some 60⟩ (JVal.vnum 7)))
          "fetchedAt" (JVal.vdate 5))) ∧
    (execute ⟨none, none, some 60⟩ false [JVal.vnum 1] 0
        (Except.ok (JVal.vnum 7)) 5 initState).result =
      Except.ok (JVal.vobj [("fetchedAt", JVal.vdate 5)]) := by
  have h := C9_timestamp_spread ⟨none, none, some 60⟩ [JVal.vnum 1] 0 5
    (JVal.vnum 7) initState rfl rfl
  exact ⟨h.1, h.2.1, h.2.2 rfl⟩

/-- C10 (cacheTime of zero disables expiration): an engine configured
with cacheTime = 0 behaves identically on execute to one with cacheTime
absent — the number 0 is falsy, so entries are never stamped with
fetchedAt and never considered expired, exactly as with no cacheTime. -/
theorem C10_zero_cache_time (ad ead : Option (JVal → JVal)) (ig : Bool)
    (A : List JVal) (checkNow stampNow : Nat) (fr : Except JVal JVal)
    (st : EngineState) (v data : JVal) (nowMs : Nat) :
    execute ⟨ad, ead, some 0⟩ ig A checkNow fr stampNow st =
      execute ⟨ad, ead, none⟩ ig A checkNow fr stampNow st ∧
    stampData (some 0) v nowMs = v ∧
    isExpiredCheck (some 0) data nowMs = false := by
  refine ⟨?_, by simp [stampData, cacheTimeTruthy], isExpiredCheck_zero data nowMs⟩
  have hcl : cacheLookup ⟨ad, ead, some 0⟩ ig (jstr (JVal.varr A)) checkNow st.cache =
      cacheLookup ⟨ad, ead, none⟩ ig (jstr (JVal.varr A)) checkNow st.cache := by
    unfold cacheLookup
    cases (if ig then none else mapGet st.cache (jstr (JVal.varr A))) with
    | none => rfl
    | some d => simp [isExpiredCheck_zero, isExpiredCheck_none]
  simp only [execute, hcl]
  cases cacheLookup ⟨ad, ead, none⟩ ig (jstr (JVal.varr A)) checkNow st.cache with
  | some d => rfl
  | none =>
    cases fr with
    | ok r => simp [executeFetch, stampData, cacheTimeTruthy, applyAdapter]
    | error e => rfl

/-- C6 counterexample: registering the same handler reference (id 0)
twice on a fresh hook and triggering once invokes it once, not twice —
the Set underlying the hook ignores the second add of a present
element. -/
theorem C6_duplicate_registration_counterexample :
    (hookTriggerCalls (hookOn (hookOn [] 0) 0)).count 0 = 1 ∧
    ¬ (hookTriggerCalls (hookOn (hookOn [] 0) 0)).count 0 = 2 := by
  decide

/-- C6 corrected (event hook duplicate registration): registering the
same callback reference twice via on is deduplicated — the second on of a
present handler is the identity on the handler set, and one trigger after
registering the same reference twice on a fresh hook invokes that
callback exactly once. -/
theorem C6_duplicate_registration (s : List Nat) (h : Nat) :
    hookOn (hookOn s h) h = hookOn s h ∧
    (hookTriggerCalls (hookOn (hookOn [] h) h)).count h = 1 := by
  constructor
  · by_cases hh : h ∈ s
    · simp [hookOn, hh]
    · simp [hookOn, hh]
  · simp [hookOn, hookTriggerCalls]

/-- C7 (unsubscribe property): on the createEventHook of part_004, after
off(h) a trigger never invokes h, and off on an unregistered handler is
the identity and raises nothing; the off of the legacy createHook in
src/src/index.ts line 9, however, evaluates handler.delete(handler) and
therefore throws a TypeError on every call, never removing anything —
that line is the code bug this claim exposes. -/
theorem C7_unsubscribe (s : List Nat) (h : Nat) :
    (hookTriggerCalls (hookOff s h)).count h = 0 ∧
    (h ∉ s → hookOff s h = s) ∧
    legacyOff s h = Except.error "TypeError: handler.delete is not a function" := by
  refine ⟨?_, ?_, rfl⟩
  · simp [hookTriggerCalls, hookOff, List.count_eq_zero, List.mem_filter]
  · intro hns
    apply List.filter_eq_self.mpr
    intro a ha
    simp only [ne_eq, decide_eq_true_eq]
    intro heq
    exact hns (heq ▸ ha)

/-- Witness for C7: removing handler 5 from a hook holding 3 and 5 keeps
5 out of the next trigger; removing the unregistered 7 leaves the
handlers untouched; the legacy off throws on any input. -/
theorem C7_unsubscribe_witness :
    (hookTriggerCalls (hookOff [3, 5] 5)).count 5 = 0 ∧
    hookOff [3] 7 = [3] ∧
    legacyOff [3] 3 = Except.error "TypeError: handler.delete is not a function" :=
  ⟨(C7_unsubscribe [3, 5] 5).1,
   (C7_unsubscribe [3] 7).2.1 (by decide),
   (C7_unsubscribe [3] 3).2.2⟩

/-- C8 (grouping correctness): with the cache holding exactly the entries
keyed by the argument tuples (1,"x"), (2,"x") and (1,"y"),
getGroupByArg(0, 1) returns exactly the two values whose first argument
serializes equal to 1, and getGroupByArg with the index omitted returns
all three values whatever probe value rides along; the result is
re-derived from the current cache contents on every read, witnessed by
the same read returning only the remaining value once the (1,"x") entry
is deleted. -/
theorem C8_grouping (v1 v2 v3 probe : JVal) :
    getGroupByArg
        [(jstr (JVal.varr [JVal.vnum 1, JVal.vstr "x"]), v1),
         (jstr (JVal.varr [JVal.vnum 2, JVal.vstr "x"]), v2),
         (jstr (JVal.varr [JVal.vnum 1, JVal.vstr "y"]), v3)]
        (some 0) (JVal.vnum 1) = [v1, v3] ∧
    getGroupByArg
        [(jstr (JVal.varr [JVal.vnum 1, JVal.vstr "x"]), v1),
         (jstr (JVal.varr [JVal.vnum 2, JVal.vstr "x"]), v2),
         (jstr (JVal.varr [JVal.vnum 1, JVal.vstr "y"]), v3)]
        none probe = [v1, v2, v3] ∧
    getGroupByArg
        (mapDelete
          [(jstr (JVal.varr [JVal.vnum 1, JVal.vstr "x"]), v1),
           (jstr (JVal.varr [JVal.vnum 2, JVal.vstr "x"]), v2),
           (jstr (JVal.varr [JVal.vnum 1, JVal.vstr "y"]), v3)]
          (jstr (JVal.varr [JVal.vnum 1, JVal.vstr "x"])))
        (some 0) (JVal.vnum 1) = [v3] :=
  ⟨rfl, rfl, rfl⟩

/-- C5 counterexample: two overlapping non-cache-hit executions on an
empty cache; when the first settles while the second is still in flight,
its finally block sets isLoading to false although the second execution's
promise has not resolved — isLoading does not stay true for the entire
span of every execution under this interleaving. -/
theorem C5_loading_counterexample :
    (runTrace ⟨none, none, none⟩
        [CStep.start 1 false [JVal.vnum 1] 0,
         CStep.start 2 false [JVal.vnum 2] 0,
         CStep.settle 1 (Except.ok (JVal.vnum 10)) 0]
        { eng := initState, pending := [] }).pending =
      [{ id := 2, cacheKey := "[2]" }] ∧
    (runTrace ⟨none, none, none⟩
        [CStep.start 1 false [JVal.vnum 1] 0,
         CStep.start 2 false [JVal.vnum 2] 0,
         CStep.settle 1 (Except.ok (JVal.vnum 10)) 0]
        { eng := initState, pending := [] }).eng.isLoading = false :=
  ⟨rfl, rfl⟩

/-- C5 corrected (loading/error state): every non-cache-hit start sets
isLoading true and resets the error state before the fetch, and a cache
hit changes nothing at all; every settlement of an in-flight execution
sets isLoading false, regardless of what else is in flight; consequently
isLoading stays true from a non-cache-hit start through any further start
steps, i.e. for the whole span of an execution provided no other
overlapping execution settles first — but not under arbitrary
interleavings. -/
theorem C5_loading_state (opts : UseApiOptions) :
    (∀ (id : Nat) (ig : Bool) (args : List JVal) (checkNow : Nat) (st : CState),
      cacheLookup opts ig (jstr (JVal.varr args)) checkNow st.eng.cache = none →
        (stepStart opts id ig args checkNow st).eng.isLoading = true ∧
        (stepStart opts id ig args checkNow st).eng.error = none ∧
        (stepStart opts id ig args checkNow st).pending =
          st.pending ++ [{ id := id, cacheKey := jstr (JVal.varr args) }]) ∧
    (∀ (id : Nat) (ig : Bool) (args : List JVal) (checkNow : Nat) (st : CState)
        (data : JVal),
      cacheLookup opts ig (jstr (JVal.varr args)) checkNow st.eng.cache = some data →
        stepStart opts id ig args checkNow st = st) ∧
    (∀ (id : Nat) (fr : Except JVal JVal) (stampNow : Nat) (st : CState),
      (st.pending.find? (fun p => p.id == id)).isSome = true →
        (stepSettle opts id fr stampNow st).eng.isLoading = false) ∧
    (∀ (steps : List CStep) (st : CState),
      st.eng.isLoading = true → (∀ s ∈ steps, isStartStep s = true) →
        (runTrace opts steps st).eng.isLoading = true) := by
  refine ⟨?_, ?_, ?_, ?_⟩
  · intro id ig args checkNow st h
    simp [stepStart, h]
  · intro id ig args checkNow st data h
    simp [stepStart, h]
  · intro id fr stampNow st h
    cases hf : st.pending.find? (fun p => p.id == id) with
    | none => rw [hf] at h; simp at h
    | some p =>
      simp only [stepSettle, hf]
      cases fr <;> rfl
  · intro steps
    induction steps with
    | nil => intro st h _; exact h
    | cons s rest ih =>
      intro st h hs
      cases s with
      | start id ig args checkNow =>
        simp only [runTrace, runStep]
        apply ih
        · cases hcl : cacheLookup opts ig (jstr (JVal.varr args)) checkNow st.eng.cache with
          | some d => simp [stepStart, hcl, h]
          | none => simp [stepStart, hcl]
        · intro s2 hs2
          exact hs s2 (by simp [hs2])
      | settle id fr stampNow =>
        have := hs (CStep.settle id fr stampNow) (by simp)
        simp [isStartStep] at this

/-- Witness for the corrected C5: a non-cache-hit start on the empty
cache sets isLoading and clears the error; a start finding the cached
entry is the identity; a settle of the single in-flight execution resets
isLoading; a later start step keeps isLoading true while one execution is
still in flight. -/
theorem C5_loading_state_witness :
    (stepStart ⟨none, none, none⟩ 1 false [JVal.vnum 1] 0
        { eng := initState, pending := [] }).eng.isLoading = true ∧
    (stepStart ⟨none, none, none⟩ 1 false [JVal.vnum 1] 0
        { eng := initState, pending := [] }).eng.error = none ∧
    stepStart ⟨none, none, none⟩ 3 false [JVal.vnum 1] 0
        { eng := { isLoading := false, error := none, triggerRef := 1,
                   cache := [("[1]", JVal.vnum 7)] }, pending := [] } =
      { eng := { isLoading := false, error := none, triggerRef := 1,
                 cache := [("[1]", JVal.vnum 7)] }, pending := [] } ∧
    (stepSettle ⟨none, none, none⟩ 1 (Except.ok (JVal.vnum 7)) 0
        { eng := { initState with isLoading := true },
          pending := [{ id := 1, cacheKey := "[1]" }] }).eng.isLoading = false ∧
    (runTrace ⟨none, none, none⟩ [CStep.start 2 false [JVal.vnum 2] 0]
        { eng := { initState with isLoading := true },
          pending := [{ id := 1, cacheKey := "[1]" }] }).eng.isLoading = true := by
  refine ⟨?_, ?_, ?_, ?_, ?_⟩
  · exact ((C5_loading_state ⟨none, none, none⟩).1 1 false [JVal.vnum 1] 0
      { eng := initState, pending := [] } rfl).1
  · exact ((C5_loading_state ⟨none, none, none⟩).1 1 false [JVal.vnum 1] 0
      { eng := initState, pending := [] } rfl).2.1
  · exact (C5_loading_state ⟨none, none, none⟩).2.1 3 false [JVal.vnum 1] 0
      { eng := { isLoading := false, error := none, triggerRef := 1,
                 cache := [("[1]", JVal.vnum 7)] }, pending := [] }
      (JVal.vnum 7) rfl
  · exact (C5_loading_state ⟨none, none, none⟩).2.2.1 1 (Except.ok (JVal.vnum 7)) 0
      { eng := { initState with isLoading := true },
        pending := [{ id := 1, cacheKey := "[1]" }] } rfl
  · exact (C5_loading_state ⟨none, none, none⟩).2.2.2
      [CStep.start 2 false [JVal.vnum 2] 0]
      { eng := { initState with isLoading := true },
        pending := [{ id := 1, cacheKey := "[1]" }] }
      rfl (by intro s hs; simp at hs; subst hs; rfl)

end KqrazeVue
